import Mathlib

/-
Verification of the CSV-to-relational synchronization engine and the
per-client conversation state manager of the finance-agentic-llm backend.

The Lean definitions below are a shallow embedding of the Python sources:
  backend/app/database/models.py          (DatabaseManager)
  backend/app/utils/csv_processor.py      (CSVProcessor)
  backend/app/services/dataset_service.py (DatasetService)
  backend/app/websockets/connection_manager.py (ConnectionManager)

Python dicts are embedded as insertion-ordered association lists with
python assignment semantics (update in place, append when the key is new).
-/

/-- Association-list lookup, mirroring python dict access. -/
def alookup {α β : Type} [DecidableEq α] : List (α × β) → α → Option β
  | [], _ => none
  | (k, v) :: d, key => if key = k then some v else alookup d key

/-- Python dict assignment d[k] = v: updates the value in place if the key
exists, otherwise appends the new pair at the end (insertion order). -/
def dictInsert {α β : Type} [DecidableEq α] : List (α × β) → α → β → List (α × β)
  | [], k, v => [(k, v)]
  | (k0, v0) :: rest, k, v =>
      if k = k0 then (k0, v) :: rest else (k0, v0) :: dictInsert rest k v

/-- Building a python dict from a list of pairs (dict comprehension:
later occurrences of a key overwrite the stored value). -/
def pyDict {α β : Type} [DecidableEq α] (l : List (α × β)) : List (α × β) :=
  l.foldl (fun d kv => dictInsert d kv.1 kv.2) []

theorem alookup_dictInsert_self {α β : Type} [DecidableEq α]
    (d : List (α × β)) (k : α) (v : β) :
    alookup (dictInsert d k v) k = some v := by
  induction d with
  | nil => simp [dictInsert, alookup]
  | cons hd tl ih =>
      by_cases h : k = hd.1
      · simp [dictInsert, alookup, h]
      · simp [dictInsert, alookup, h, ih]

theorem alookup_dictInsert_ne {α β : Type} [DecidableEq α]
    (d : List (α × β)) (k k0 : α) (v : β) (h : k ≠ k0) :
    alookup (dictInsert d k0 v) k = alookup d k := by
  induction d with
  | nil => simp [dictInsert, alookup, h]
  | cons hd tl ih =>
      by_cases h0 : k0 = hd.1
      · subst h0
        simp [dictInsert, alookup, h]
      · by_cases h1 : k = hd.1
        · simp [dictInsert, alookup, h0, h1]
        · simp [dictInsert, alookup, h0, h1, ih]

theorem alookup_dictInsert_isSome {α β : Type} [DecidableEq α]
    (d : List (α × β)) (k k0 : α) (v : β) (h : (alookup d k).isSome) :
    (alookup (dictInsert d k0 v) k).isSome := by
  by_cases hk : k = k0
  · subst hk
    simp [alookup_dictInsert_self]
  · rw [alookup_dictInsert_ne d k k0 v hk]
    exact h

theorem dictInsert_length_new {α β : Type} [DecidableEq α]
    (d : List (α × β)) (k : α) (v : β) (h : alookup d k = none) :
    (dictInsert d k v).length = d.length + 1 := by
  induction d with
  | nil => simp [dictInsert]
  | cons hd tl ih =>
      by_cases h0 : k = hd.1
      · simp [alookup, h0] at h
      · simp [alookup, h0] at h
        simp [dictInsert, h0, ih h]

theorem dictInsert_length_old {α β : Type} [DecidableEq α]
    (d : List (α × β)) (k : α) (v : β) (h : (alookup d k).isSome) :
    (dictInsert d k v).length = d.length := by
  induction d with
  | nil => simp [alookup] at h
  | cons hd tl ih =>
      by_cases h0 : k = hd.1
      · simp [dictInsert, h0]
      · simp [alookup, h0] at h
        simp [dictInsert, h0, ih h]

theorem alookup_pyDict_isSome_aux {α β : Type} [DecidableEq α]
    (l : List (α × β)) (acc : List (α × β)) (k : α)
    (h : (alookup acc k).isSome ∨ k ∈ l.map Prod.fst) :
    (alookup (l.foldl (fun d kv => dictInsert d kv.1 kv.2) acc) k).isSome := by
  induction l generalizing acc with
  | nil =>
      rcases h with h | h
      · simpa using h
      · simp at h
  | cons hd tl ih =>
      simp only [List.foldl_cons]
      apply ih
      rcases h with h | h
      · exact Or.inl (alookup_dictInsert_isSome acc k hd.1 hd.2 h)
      · simp only [List.map_cons, List.mem_cons] at h
        rcases h with h | h
        · subst h
          exact Or.inl (by simp [alookup_dictInsert_self])
        · exact Or.inr h

/-- Every key occurring in the input list is a key of the python dict
built from it. -/
theorem alookup_pyDict_isSome {α β : Type} [DecidableEq α]
    (l : List (α × β)) (k : α) (h : k ∈ l.map Prod.fst) :
    (alookup (pyDict l) k).isSome :=
  alookup_pyDict_isSome_aux l [] k (Or.inr h)

theorem dictInsert_absent {α β : Type} [DecidableEq α]
    (d : List (α × β)) (k : α) (v : β) (h : alookup d k = none) :
    dictInsert d k v = d ++ [(k, v)] := by
  induction d with
  | nil => simp [dictInsert]
  | cons hd tl ih =>
      by_cases h0 : k = hd.1
      · simp [alookup, h0] at h
      · simp [alookup, h0] at h
        simp [dictInsert, h0, ih h]

/- ===================================================================
   SchemaTypeInferencer: DatabaseManager._infer_column_type together with
   the dtype inference performed by pandas read_csv on a CSV column.
   A Cell classifies one CSV token by how the pandas reader parses it:
   a missing/empty field (null), a token parsing as an integer literal,
   a token parsing as a float but not as an integer, or any other token.
   =================================================================== -/

inductive Cell : Type where
  | null : Cell
  | intVal : Int → Cell
  | floatVal : Cell
  | textVal : String → Cell
deriving DecidableEq, Repr

def Cell.isNull : Cell → Bool
  | Cell.null => true
  | _ => false

def Cell.isInt : Cell → Bool
  | Cell.intVal _ => true
  | _ => false

def Cell.isFloat : Cell → Bool
  | Cell.floatVal => true
  | _ => false

def Cell.isText : Cell → Bool
  | Cell.textVal _ => true
  | _ => false

/-- The integer token fits the signed 64-bit range of an int64 column. -/
def Cell.inInt64 : Cell → Bool
  | Cell.intVal n => decide (-(2 ^ 63) ≤ n) && decide (n < 2 ^ 63)
  | _ => true

/-- The integer token fits the unsigned 64-bit range of a uint64 column. -/
def Cell.inUInt64 : Cell → Bool
  | Cell.intVal n => decide (0 ≤ n) && decide (n < 2 ^ 64)
  | _ => true

inductive Dtype : Type where
  | int64 : Dtype
  | uint64 : Dtype
  | float64 : Dtype
  | object : Dtype
deriving DecidableEq, Repr

/-- Dtype pandas read_csv assigns to a column of parsed tokens: any
non-numeric token forces object; otherwise any missing value (NaN) or
float token forces float64; an all-integer column gets int64 when every
value fits the signed 64-bit range, else uint64 when every value fits the
unsigned 64-bit range, else the values are converted to doubles
(float64); a column with no rows is object. -/
def pandasDtype (col : List Cell) : Dtype :=
  if col.isEmpty then Dtype.object
  else if col.any Cell.isText then Dtype.object
  else if col.any (fun c => c.isNull || c.isFloat) then Dtype.float64
  else if col.all Cell.inInt64 then Dtype.int64
  else if col.all Cell.inUInt64 then Dtype.uint64
  else Dtype.float64

inductive ColType : Type where
  | integer : ColType
  | real : ColType
  | text : ColType
deriving DecidableEq, Repr

/-- DatabaseManager._infer_column_type: integer dtypes (int64 and
uint64) to Integer, float dtype to Float, anything else to String. -/
def _infer_column_type (col : List Cell) : ColType :=
  match pandasDtype col with
  | Dtype.int64 => ColType.integer
  | Dtype.uint64 => ColType.integer
  | Dtype.float64 => ColType.real
  | Dtype.object => ColType.text

/-- The inference rule exactly as claim C3 words it: integer when every
non-null value parses as an integer; else real when every value parses as
a float; else text; with an all-null column inferred as text. -/
def claimedInferredType (col : List Cell) : ColType :=
  if col.all Cell.isNull then ColType.text
  else if col.all (fun c => c.isNull || c.isInt) then ColType.integer
  else if col.all (fun c => c.isNull || c.isInt || c.isFloat) then ColType.real
  else ColType.text

/-- The amended inference rule: integer only when the column is nonempty,
has no nulls, every value parses as an integer, and the values fit one
64-bit integer column (all in the signed range, or all in the unsigned
range); else real when the column is nonempty and every non-null value
parses as a number, which makes a column of all nulls real and a column
of range-overflowing integers real; else text. -/
def amendedInferredType (col : List Cell) : ColType :=
  if !col.isEmpty && col.all Cell.isInt &&
      (col.all Cell.inInt64 || col.all Cell.inUInt64) then ColType.integer
  else if !col.isEmpty && col.all (fun c => c.isNull || c.isInt || c.isFloat) then
    ColType.real
  else ColType.text

theorem cell_not_text_numeric (c : Cell) (h : c.isText = false) :
    (c.isNull || c.isInt || c.isFloat) = true := by
  cases c <;> simp_all [Cell.isText, Cell.isNull, Cell.isInt, Cell.isFloat]

theorem cell_kinds (c : Cell) (ht : c.isText = false) (hn : (c.isNull || c.isFloat) = false) :
    c.isInt = true := by
  cases c <;> simp_all [Cell.isText, Cell.isNull, Cell.isInt, Cell.isFloat]

/-- Claim C3 counterexample: on a column consisting of a single null the
code infers real (pandas gives an all-NaN column dtype float64, which
_infer_column_type maps to Float) while the claim demands text; on a
column of an integer and a null the code infers real while the claim
demands integer; and on a column of integer tokens that fit neither an
int64 nor a uint64 column (a negative value next to 2 to the 63rd) the
code infers real while the claim demands integer — while a single token
of 2 to the 63rd alone is still integer (uint64). -/
theorem C3_counterexample :
    _infer_column_type [Cell.null] = ColType.real ∧
    claimedInferredType [Cell.null] = ColType.text ∧
    _infer_column_type [Cell.intVal 1, Cell.null] = ColType.real ∧
    claimedInferredType [Cell.intVal 1, Cell.null] = ColType.integer ∧
    _infer_column_type [Cell.intVal (-1), Cell.intVal (2 ^ 63)] = ColType.real ∧
    claimedInferredType [Cell.intVal (-1), Cell.intVal (2 ^ 63)] =
      ColType.integer ∧
    _infer_column_type [Cell.intVal (2 ^ 63)] = ColType.integer := by
  decide

/-- Claim C3 (amended): the inferred storage type is integer exactly when
the column is nonempty, contains no nulls, every value parses as an
integer, and the values fit one 64-bit integer column (all within the
signed int64 range, or all within the unsigned uint64 range); otherwise
real when the column is nonempty and every non-null value parses as a
number (so a column of all nulls is real, and so is an all-integer
column overflowing both 64-bit ranges); otherwise text. The worked
examples of the claim hold unchanged. -/
theorem C3_inference_amended :
    (∀ col : List Cell, _infer_column_type col = amendedInferredType col) ∧
    _infer_column_type [Cell.intVal 1, Cell.intVal 2, Cell.intVal 3] = ColType.integer ∧
    _infer_column_type [Cell.intVal 1, Cell.floatVal] = ColType.real ∧
    _infer_column_type [Cell.intVal 1, Cell.textVal "abc"] = ColType.text := by
  refine ⟨?_, by decide, by decide, by decide⟩
  intro col
  unfold _infer_column_type pandasDtype amendedInferredType
  by_cases he : col.isEmpty
  · simp [he]
  · by_cases ht : col.any Cell.isText
    · have h1 : col.all Cell.isInt = false := by
        rcases List.any_eq_true.mp ht with ⟨c, hc, hct⟩
        apply Bool.eq_false_iff.mpr
        intro hall
        have := List.all_eq_true.mp hall c hc
        cases c <;> simp_all [Cell.isText, Cell.isInt]
      have h2 : col.all (fun c => c.isNull || c.isInt || c.isFloat) = false := by
        rcases List.any_eq_true.mp ht with ⟨c, hc, hct⟩
        apply Bool.eq_false_iff.mpr
        intro hall
        have := List.all_eq_true.mp hall c hc
        cases c <;> simp_all [Cell.isText, Cell.isNull, Cell.isInt, Cell.isFloat]
      simp [he, ht, h1, h2]
    · have htf : ∀ c ∈ col, c.isText = false := by
        intro c hc
        cases hor : c.isText with
        | false => rfl
        | true => exact absurd (List.any_eq_true.mpr ⟨c, hc, hor⟩) ht
      by_cases hn : col.any (fun c => c.isNull || c.isFloat)
      · have h1 : col.all Cell.isInt = false := by
          rcases List.any_eq_true.mp hn with ⟨c, hc, hcn⟩
          apply Bool.eq_false_iff.mpr
          intro hall
          have := List.all_eq_true.mp hall c hc
          cases c <;> simp_all [Cell.isNull, Cell.isInt, Cell.isFloat]
        have h2 : col.all (fun c => c.isNull || c.isInt || c.isFloat) = true :=
          List.all_eq_true.mpr (fun c hc => cell_not_text_numeric c (htf c hc))
        simp [he, ht, hn, h1, h2]
      · have hnf : ∀ c ∈ col, (c.isNull || c.isFloat) = false := by
          intro c hc
          cases hor : (c.isNull || c.isFloat) with
          | false => rfl
          | true => exact absurd (List.any_eq_true.mpr ⟨c, hc, hor⟩) hn
        have h1 : col.all Cell.isInt = true :=
          List.all_eq_true.mpr (fun c hc => cell_kinds c (htf c hc) (hnf c hc))
        by_cases hi : col.all Cell.inInt64
        · simp [he, ht, hn, hi, h1]
        · by_cases hu : col.all Cell.inUInt64
          · simp [he, ht, hn, hi, hu, h1]
          · have h2 : col.all (fun c => c.isNull || c.isInt || c.isFloat) = true :=
              List.all_eq_true.mpr (fun c hc => cell_not_text_numeric c (htf c hc))
            simp [he, ht, hn, hi, hu, h1, h2]

/- ===================================================================
   DatabaseManager (backend/app/database/models.py).
   A parsed CSV file (the pandas DataFrame) is a list of named columns of
   cells; all columns have the row count of the file.  The DBState keeps
   the table_models registry (table name to schema, a schema being the
   python class dict mapping column name to storage type) and the row
   count of each materialized table.
   =================================================================== -/

structure CSVData where
  cols : List (String × List Cell)
deriving DecidableEq, Repr

/-- len(df.to_dict(records)): the row count of the file. -/
def CSVData.nrows (df : CSVData) : Nat :=
  match df.cols with
  | [] => 0
  | c :: _ => c.2.length

/-- listBeginsWith xs ps: ps is an initial segment of xs. -/
def listBeginsWith : List Char → List Char → Bool
  | _, [] => true
  | [], _ :: _ => false
  | c :: cs, p :: ps => c == p && listBeginsWith cs ps

/-- python str.startswith -/
def pyStartsWith (s p : String) : Bool := listBeginsWith s.data p.data

/-- python str.endswith -/
def pyEndsWith (s p : String) : Bool := listBeginsWith s.data.reverse p.data.reverse

/-- python str.strip() -/
def pyStrip (s : String) : String :=
  String.mk (((s.data.dropWhile Char.isWhitespace).reverse.dropWhile
    Char.isWhitespace).reverse)

/-- python str.lower() -/
def pyToLower (s : String) : String := String.mk (s.data.map Char.toLower)

/-- col.strip().lower().replace(space, underscore) -/
def clean_col (s : String) : String :=
  String.mk ((pyToLower (pyStrip s)).data.map (fun c => if c = ' ' then '_' else c))

def cleanedCols (df : CSVData) : List String :=
  df.cols.map (fun c => clean_col c.1)

/-- Length of the root part of os.path.splitext: everything before the
last dot that is preceded somewhere by a non-dot character; a base name
of only leading dots (or with no dot at all) keeps its full length. -/
def rootLen (cs : List Char) : Nat :=
  (cs.foldl
    (fun (acc : Nat × Bool × Nat) (c : Char) =>
      if c = '.' then (acc.1 + 1, acc.2.1, if acc.2.1 then acc.1 else acc.2.2)
      else (acc.1 + 1, true, acc.2.2))
    (0, false, cs.length)).2.2

/-- os.path.splitext(base)[0] -/
def splitextRoot (s : String) : String :=
  String.mk (s.toList.take (rootLen s.toList))

/-- os.path.splitext(os.path.basename(p))[0].lower(): the table name
derived from a file base name. -/
def table_name_of (base : String) : String :=
  pyToLower (splitextRoot base)

structure DBState where
  table_models : List (String × List (String × ColType))
  rowCounts : List (String × Nat)
deriving DecidableEq, Repr

/-- The column dict of the dynamically created table class: the id
primary key first, then one entry per CSV column with cleaned name and
inferred type; a duplicate cleaned name overwrites (python class dict). -/
def fullSchema (df : CSVData) : List (String × ColType) :=
  pyDict (("id", ColType.integer) ::
    df.cols.map (fun c => (clean_col c.1, _infer_column_type c.2)))

/-- DatabaseManager.create_table_from_csv on the path where the dynamic
type() call succeeds: stores the complete table class in table_models
(the DDL has no further model effect). In the source the type() call
raises before table_models is assigned when a column cleans to id or
metadata; that path is modelled by createRaises, which import_csv_data
checks before reaching this write, so a failing creation registers
nothing. -/
def create_table_from_csv (db : DBState) (tname : String) (df : CSVData) : DBState :=
  { db with table_models := dictInsert db.table_models tname (fullSchema df) }

/-- Constructing the records succeeds when the file has no data rows (no
record is built at all, so the empty transaction commits) or every
cleaned column name of the file is a column of the registered model (an
unexpected keyword raises TypeError on the first record). -/
def insertOk (df : CSVData) (schema : List (String × ColType)) : Bool :=
  decide (df.nrows = 0) ||
    (cleanedCols df).all (fun c => (alookup schema c).isSome)

/-- The dynamic type() call of create_table_from_csv raises when the
class dict displaces the surrogate primary key (a CSV column cleaned to
id overwrites the primary-key column, leaving the declarative class
without any primary key) or assigns the reserved declarative attribute
metadata. -/
def createRaises (df : CSVData) : Bool :=
  (cleanedCols df).any (fun c => c = "id" || c = "metadata")

inductive ImportError : Type where
  | parseError : ImportError
  | createError : ImportError
  | insertError : ImportError
deriving DecidableEq, Repr

/-- A source file on disk: base name, abstract raw content (the MD5
fingerprint surrogate) and the result of pd.read_csv (none when the
reader raises on a malformed file). -/
structure SrcFile0 where
  name : String
  content : Nat
  parsed : Option CSVData
deriving DecidableEq, Repr

/-- DatabaseManager.import_csv_data: read the file, derive the table
name, create the table when it is not yet registered (the declarative
type() call raising for a column cleaned to id or metadata, before the
registry is written), then insert all records in one transaction and
return the record count; a pandas parse failure, a class-creation
failure, or a record/model keyword mismatch raises. -/
def import_csv_data (db : DBState) (f : SrcFile0) : DBState × Except ImportError Nat :=
  match f.parsed with
  | none => (db, Except.error ImportError.parseError)
  | some df =>
    let tname := table_name_of f.name
    if (alookup db.table_models tname).isSome then
      if insertOk df ((alookup db.table_models tname).getD []) then
        ({ db with
            rowCounts :=
              dictInsert db.rowCounts tname
                ((alookup db.rowCounts tname).getD 0 + df.nrows) },
         Except.ok df.nrows)
      else (db, Except.error ImportError.insertError)
    else if createRaises df then
      (db, Except.error ImportError.createError)
    else
      let db1 := create_table_from_csv db tname df
      if insertOk df ((alookup db1.table_models tname).getD []) then
        ({ db1 with
            rowCounts :=
              dictInsert db1.rowCounts tname
                ((alookup db1.rowCounts tname).getD 0 + df.nrows) },
         Except.ok df.nrows)
      else (db1, Except.error ImportError.insertError)

def DBState.get_table_names (db : DBState) : List String :=
  db.table_models.map Prod.fst

inductive LookupErr : Type where
  | notFound : LookupErr
deriving DecidableEq, Repr

/-- DatabaseManager.get_table_schema: raises ValueError (NotFound) when
the table was never created. -/
def get_table_schema (db : DBState) (t : String) :
    Except LookupErr (List (String × ColType)) :=
  match alookup db.table_models t with
  | none => Except.error LookupErr.notFound
  | some s => Except.ok s

def isOkE {ε α : Type} : Except ε α → Bool
  | Except.ok _ => true
  | Except.error _ => false

theorem isSome_false_eq_none {α : Type} (o : Option α) (h : o.isSome = false) :
    o = none := by
  cases o with
  | none => rfl
  | some a => simp at h

/-- Every cleaned column of the source file is a key of the schema built
for it: registration is all-or-nothing. -/
theorem fullSchema_complete (df : CSVData) (c : String) (h : c ∈ cleanedCols df) :
    (alookup (fullSchema df) c).isSome := by
  apply alookup_pyDict_isSome
  simp only [List.map_cons, List.mem_cons, List.map_map]
  right
  simpa [cleanedCols, Function.comp] using h

theorem insertOk_fullSchema (df : CSVData) : insertOk df (fullSchema df) = true := by
  have h : (cleanedCols df).all (fun c => (alookup (fullSchema df) c).isSome) = true := by
    apply List.all_eq_true.mpr
    intro c hc
    simpa using fullSchema_complete df c hc
  simp [insertOk, h]

/-- A failed import leaves the whole database state untouched. -/
theorem import_fail_pure (db : DBState) (f : SrcFile0)
    (h : isOkE (import_csv_data db f).2 = false) :
    (import_csv_data db f).1 = db := by
  cases hp : f.parsed with
  | none => simp [import_csv_data, hp]
  | some df =>
      by_cases hs : (alookup db.table_models (table_name_of f.name)).isSome
      · by_cases hio :
          insertOk df ((alookup db.table_models (table_name_of f.name)).getD []) = true
        · simp [import_csv_data, hp, hs, hio, isOkE] at h
        · simp only [Bool.not_eq_true] at hio
          simp [import_csv_data, hp, hs, hio]
      · simp only [Bool.not_eq_true] at hs
        by_cases hcr : createRaises df = true
        · simp [import_csv_data, hp, hs, hcr]
        · simp only [Bool.not_eq_true] at hcr
          simp [import_csv_data, hp, hs, hcr, create_table_from_csv,
            alookup_dictInsert_self, insertOk_fullSchema, isOkE] at h

/-- Registered tables are frozen: any import preserves every existing
registry entry unchanged. -/
theorem import_tm_mono (db : DBState) (f : SrcFile0) (t : String)
    (s : List (String × ColType)) (h : alookup db.table_models t = some s) :
    alookup (import_csv_data db f).1.table_models t = some s := by
  cases hp : f.parsed with
  | none => simpa [import_csv_data, hp] using h
  | some df =>
      by_cases hs : (alookup db.table_models (table_name_of f.name)).isSome
      · by_cases hio :
          insertOk df ((alookup db.table_models (table_name_of f.name)).getD []) = true
        · simpa [import_csv_data, hp, hs, hio] using h
        · simp only [Bool.not_eq_true] at hio
          simpa [import_csv_data, hp, hs, hio] using h
      · have hne : t ≠ table_name_of f.name := by
          intro he
          rw [← he] at hs
          simp [h] at hs
        simp only [Bool.not_eq_true] at hs
        by_cases hcr : createRaises df = true
        · simpa [import_csv_data, hp, hs, hcr] using h
        · simp only [Bool.not_eq_true] at hcr
          simp [import_csv_data, hp, hs, hcr, create_table_from_csv,
            alookup_dictInsert_self, insertOk_fullSchema,
            alookup_dictInsert_ne _ _ _ _ hne, h]

/-- An import touches no registry key other than the table name derived
from its own file. -/
theorem import_tm_frame (db : DBState) (f : SrcFile0) (t : String)
    (hne : t ≠ table_name_of f.name) :
    alookup (import_csv_data db f).1.table_models t = alookup db.table_models t := by
  cases hp : f.parsed with
  | none => simp [import_csv_data, hp]
  | some df =>
      by_cases hs : (alookup db.table_models (table_name_of f.name)).isSome
      · by_cases hio :
          insertOk df ((alookup db.table_models (table_name_of f.name)).getD []) = true
        · simp [import_csv_data, hp, hs, hio]
        · simp only [Bool.not_eq_true] at hio
          simp [import_csv_data, hp, hs, hio]
      · simp only [Bool.not_eq_true] at hs
        by_cases hcr : createRaises df = true
        · simp [import_csv_data, hp, hs, hcr]
        · simp only [Bool.not_eq_true] at hcr
          simp [import_csv_data, hp, hs, hcr, create_table_from_csv,
            alookup_dictInsert_self, insertOk_fullSchema,
            alookup_dictInsert_ne _ _ _ _ hne]

/-- Characterization of import failure: the pandas reader raises, or the
table does not exist yet and class creation raises (a column cleaned to
id or metadata), or the table already exists with a schema that rejects
some record keyword. A file whose table is created in the same call
never fails at insertion. -/
theorem import_fail_char (db : DBState) (f : SrcFile0) :
    isOkE (import_csv_data db f).2 = false ↔
      f.parsed = none ∨
      (∃ df, f.parsed = some df ∧
        alookup db.table_models (table_name_of f.name) = none ∧
        createRaises df = true) ∨
      (∃ df s, f.parsed = some df ∧
        alookup db.table_models (table_name_of f.name) = some s ∧
        insertOk df s = false) := by
  constructor
  · intro h
    cases hp : f.parsed with
    | none => exact Or.inl rfl
    | some df =>
        by_cases hs : (alookup db.table_models (table_name_of f.name)).isSome
        · rcases Option.isSome_iff_exists.mp hs with ⟨s0, hs0⟩
          refine Or.inr (Or.inr ⟨df, s0, rfl, hs0, ?_⟩)
          by_cases hio :
            insertOk df ((alookup db.table_models (table_name_of f.name)).getD []) = true
          · simp [import_csv_data, hp, hs, hio, isOkE] at h
          · simpa [hs0] using hio
        · simp only [Bool.not_eq_true] at hs
          have habs := isSome_false_eq_none _ hs
          by_cases hcr : createRaises df = true
          · exact Or.inr (Or.inl ⟨df, rfl, habs, hcr⟩)
          · simp only [Bool.not_eq_true] at hcr
            exfalso
            simp [import_csv_data, hp, hs, hcr, create_table_from_csv,
              alookup_dictInsert_self, insertOk_fullSchema, isOkE] at h
  · intro h
    rcases h with hp | ⟨df, hp, habs, hcr⟩ | ⟨df, s, hp, hl, hio⟩
    · simp [import_csv_data, hp, isOkE]
    · have hs : (alookup db.table_models (table_name_of f.name)).isSome = false := by
        simp [habs]
      simp [import_csv_data, hp, hs, hcr, isOkE]
    · have hs : (alookup db.table_models (table_name_of f.name)).isSome := by simp [hl]
      have hgd : (alookup db.table_models (table_name_of f.name)).getD [] = s := by
        simp [hl]
      simp [import_csv_data, hp, hs, hgd, hio, isOkE]

/-- Importing a parseable file whose table does not yet exist and whose
columns do not trip class creation succeeds, returns the row count of
the file and registers its complete schema. -/
theorem import_fresh_ok (db : DBState) (f : SrcFile0) (df : CSVData)
    (hp : f.parsed = some df)
    (habs : alookup db.table_models (table_name_of f.name) = none)
    (hcr : createRaises df = false) :
    (import_csv_data db f).2 = Except.ok df.nrows ∧
    (import_csv_data db f).1.table_models =
      dictInsert db.table_models (table_name_of f.name) (fullSchema df) := by
  have hs : (alookup db.table_models (table_name_of f.name)).isSome = false := by
    simp [habs]
  constructor
  · simp [import_csv_data, hp, hs, hcr, create_table_from_csv,
      alookup_dictInsert_self, insertOk_fullSchema]
  · simp [import_csv_data, hp, hs, hcr, create_table_from_csv,
      alookup_dictInsert_self, insertOk_fullSchema]

/-- Importing a parseable file whose table does not yet exist but whose
columns clean to id or metadata fails at the declarative type() call,
before anything is registered: the database is untouched. -/
theorem import_fresh_raises (db : DBState) (f : SrcFile0) (df : CSVData)
    (hp : f.parsed = some df)
    (habs : alookup db.table_models (table_name_of f.name) = none)
    (hcr : createRaises df = true) :
    (import_csv_data db f) = (db, Except.error ImportError.createError) := by
  have hs : (alookup db.table_models (table_name_of f.name)).isSome = false := by
    simp [habs]
  simp [import_csv_data, hp, hs, hcr]

/-- Failure of an import persists to any later database state that keeps
every existing registry entry and does not create the table this file
derives its name from. -/
theorem import_fail_stable_frame (db db2 : DBState) (f : SrcFile0)
    (h : isOkE (import_csv_data db f).2 = false)
    (hmono : ∀ t s, alookup db.table_models t = some s →
      alookup db2.table_models t = some s)
    (hframe : alookup db.table_models (table_name_of f.name) = none →
      alookup db2.table_models (table_name_of f.name) = none) :
    isOkE (import_csv_data db2 f).2 = false := by
  rcases (import_fail_char db f).mp h with
    hp | ⟨df, hp, habs, hcr⟩ | ⟨df, s, hp, hl, hio⟩
  · exact (import_fail_char db2 f).mpr (Or.inl hp)
  · exact (import_fail_char db2 f).mpr (Or.inr (Or.inl ⟨df, hp, hframe habs, hcr⟩))
  · exact (import_fail_char db2 f).mpr (Or.inr (Or.inr ⟨df, s, hp, hmono _ _ hl, hio⟩))

/-- When the derived table already exists, an import (successful or not)
leaves the whole registry unchanged. -/
theorem import_tm_eq_of_present (db : DBState) (f : SrcFile0)
    (h : (alookup db.table_models (table_name_of f.name)).isSome) :
    (import_csv_data db f).1.table_models = db.table_models := by
  cases hp : f.parsed with
  | none => simp [import_csv_data, hp]
  | some df =>
      by_cases hio :
        insertOk df ((alookup db.table_models (table_name_of f.name)).getD []) = true
      · simp [import_csv_data, hp, h, hio]
      · simp only [Bool.not_eq_true] at hio
        simp [import_csv_data, hp, h, hio]

/- ===================================================================
   CSVProcessor (backend/app/utils/csv_processor.py).
   The dataset directory is modelled as the root directory name, the
   files directly under the root, and the immediate subdirectories with
   their files, in os.walk order (root first, then each subdirectory).
   =================================================================== -/

structure Fs where
  rootName : String
  rootFiles : List SrcFile0
  subdirs : List (String × List SrcFile0)
deriving DecidableEq, Repr

/-- The scan filter of get_csv_files: extension .csv and no leading dot. -/
def keepFile (f : SrcFile0) : Bool :=
  pyEndsWith f.name ".csv" && !(pyStartsWith f.name ".")

/-- A discovered file with its full path (os.path.join of walk root and
base name). -/
structure PathFile where
  path : String
  file : SrcFile0
deriving DecidableEq, Repr

/-- CSVProcessor.get_csv_files: recursive walk collecting every file
ending in .csv whose name does not start with a dot. -/
def get_csv_files (fs : Fs) : List PathFile :=
  (fs.rootFiles.filter keepFile).map
      (fun f => ⟨fs.rootName ++ "/" ++ f.name, f⟩) ++
    fs.subdirs.flatMap
      (fun sd => (sd.2.filter keepFile).map
        (fun f => ⟨fs.rootName ++ "/" ++ sd.1 ++ "/" ++ f.name, f⟩))

/-- The category entry one walked directory contributes: skipped when
its name equals the dataset root name or it holds no file ending in
.csv; note there is no leading-dot filter here, unlike the scan. -/
def categoryEntry (rootName : String) (sd : String × List SrcFile0) :
    Option (String × List String) :=
  if sd.1 = rootName then none
  else
    let csvs := (sd.2.filter (fun f => pyEndsWith f.name ".csv")).map
      (fun f => f.name)
    if csvs.isEmpty then none else some (sd.1, csvs)

/-- CSVProcessor.get_dataset_categories: one dict entry per walked
directory other than the dataset root itself, holding its files ending
in .csv (no leading-dot filter here); directories with no CSV file are
skipped. -/
def get_dataset_categories (fs : Fs) : List (String × List String) :=
  pyDict (fs.subdirs.filterMap (categoryEntry fs.rootName))

/-- The mutable state of a CSVProcessor paired with its DatabaseManager:
the fingerprint map file_hashes (full path to content hash) and the
initialized flag. -/
structure ProcState where
  db : DBState
  file_hashes : List (String × Nat)
  initialized : Bool
deriving DecidableEq, Repr

def procInit : ProcState :=
  { db := { table_models := [], rowCounts := [] }, file_hashes := [], initialized := false }

/-- The per-file guard of process_csv_files: process when this is the
first run of the process lifetime or the recorded hash differs. -/
def shouldProcess (st : ProcState) (pf : PathFile) : Bool :=
  !st.initialized || !(decide (alookup st.file_hashes pf.path = some pf.file.content))

/-- One iteration of the loop body of process_csv_files: on success
record the count and the fingerprint, on failure record zero and leave
the fingerprint untouched; skipped files produce no entry at all. -/
def syncStep (acc : ProcState × List (String × Nat)) (pf : PathFile) :
    ProcState × List (String × Nat) :=
  let st := acc.1
  let stats := acc.2
  if shouldProcess st pf then
    match import_csv_data st.db pf.file with
    | (db2, Except.ok n) =>
        ({ st with
            db := db2
            file_hashes := dictInsert st.file_hashes pf.path pf.file.content },
         dictInsert stats pf.file.name n)
    | (db2, Except.error _) =>
        ({ st with db := db2 }, dictInsert stats pf.file.name 0)
  else acc

def runFiles (files : List PathFile) (acc : ProcState × List (String × Nat)) :
    ProcState × List (String × Nat) :=
  match files with
  | [] => acc
  | pf :: rest => runFiles rest (syncStep acc pf)

/-- CSVProcessor.process_csv_files (DatasetIngestionEngine.synchronize):
loop over the scanned files, then set initialized and return the stats
dict. -/
def process_csv_files (fs : Fs) (st : ProcState) :
    ProcState × List (String × Nat) :=
  let r := runFiles (get_csv_files fs) (st, [])
  ({ r.1 with initialized := true }, r.2)

/- ===================================================================
   DatasetService (backend/app/services/dataset_service.py).
   =================================================================== -/

inductive ServiceErr : Type where
  | categoryNotFound : ServiceErr
deriving DecidableEq, Repr

/-- DatasetService.get_category_table_schemas: 404 (CategoryNotFound)
when the category is absent from get_dataset_categories; otherwise the
tables of the category that already exist, ValueError being swallowed
per file. -/
def get_category_table_schemas (db : DBState) (fs : Fs) (category : String) :
    Except ServiceErr (String × List (String × List (String × ColType))) :=
  match alookup (get_dataset_categories fs) category with
  | none => Except.error ServiceErr.categoryNotFound
  | some files =>
      Except.ok (category,
        files.foldl
          (fun acc fname =>
            match get_table_schema db (table_name_of fname) with
            | Except.ok s => dictInsert acc (table_name_of fname) s
            | Except.error _ => acc)
          [])

theorem isOkE_true {ε α : Type} (e : Except ε α) (h : isOkE e = true) :
    ∃ a, e = Except.ok a := by
  cases e with
  | ok a => exact ⟨a, rfl⟩
  | error b => simp [isOkE] at h

/-- A skipped file changes nothing. -/
theorem syncStep_skip (acc : ProcState × List (String × Nat)) (pf : PathFile)
    (h : shouldProcess acc.1 pf = false) : syncStep acc pf = acc := by
  simp [syncStep, h]

/-- A processed file whose import succeeds records count and fingerprint. -/
theorem syncStep_proc_ok (acc : ProcState × List (String × Nat)) (pf : PathFile)
    (n : Nat) (hsp : shouldProcess acc.1 pf = true)
    (hok : (import_csv_data acc.1.db pf.file).2 = Except.ok n) :
    syncStep acc pf =
      ({ acc.1 with
          db := (import_csv_data acc.1.db pf.file).1
          file_hashes := dictInsert acc.1.file_hashes pf.path pf.file.content },
       dictInsert acc.2 pf.file.name n) := by
  cases him : import_csv_data acc.1.db pf.file with
  | mk db2 r =>
      rw [him] at hok
      simp only at hok
      subst hok
      simp [syncStep, hsp, him]

/-- A processed file whose import fails records a zero count and leaves
the processor state (database and fingerprints) exactly as it was. -/
theorem syncStep_proc_err (acc : ProcState × List (String × Nat)) (pf : PathFile)
    (hsp : shouldProcess acc.1 pf = true)
    (herr : isOkE (import_csv_data acc.1.db pf.file).2 = false) :
    syncStep acc pf = (acc.1, dictInsert acc.2 pf.file.name 0) := by
  have hpure := import_fail_pure acc.1.db pf.file herr
  cases him : import_csv_data acc.1.db pf.file with
  | mk db2 r =>
      rw [him] at hpure herr
      simp only at hpure herr
      cases r with
      | ok a => simp [isOkE] at herr
      | error e =>
          subst hpure
          simp [syncStep, hsp, him]

theorem runFiles_initialized (files : List PathFile)
    (acc : ProcState × List (String × Nat)) :
    (runFiles files acc).1.initialized = acc.1.initialized := by
  induction files generalizing acc with
  | nil => rfl
  | cons pf rest ih =>
      rw [runFiles, ih]
      by_cases hsp : shouldProcess acc.1 pf = true
      · cases him : import_csv_data acc.1.db pf.file with
        | mk db2 r => cases r <;> simp [syncStep, hsp, him]
      · simp only [Bool.not_eq_true] at hsp
        simp [syncStep_skip acc pf hsp]

theorem syncStep_fh_frame (acc : ProcState × List (String × Nat)) (pf : PathFile)
    (p : String) (hne : p ≠ pf.path) :
    alookup (syncStep acc pf).1.file_hashes p = alookup acc.1.file_hashes p := by
  by_cases hsp : shouldProcess acc.1 pf = true
  · cases him : import_csv_data acc.1.db pf.file with
    | mk db2 r =>
        cases r <;>
          simp [syncStep, hsp, him, alookup_dictInsert_ne _ _ _ _ hne]
  · simp only [Bool.not_eq_true] at hsp
    simp [syncStep_skip acc pf hsp]

theorem runFiles_fh_frame (files : List PathFile)
    (acc : ProcState × List (String × Nat)) (p : String)
    (h : p ∉ files.map (fun pf => pf.path)) :
    alookup (runFiles files acc).1.file_hashes p = alookup acc.1.file_hashes p := by
  induction files generalizing acc with
  | nil => rfl
  | cons pf rest ih =>
      simp only [List.map_cons, List.mem_cons, not_or] at h
      rw [runFiles, ih _ h.2, syncStep_fh_frame acc pf p h.1]

theorem syncStep_stats_frame (acc : ProcState × List (String × Nat)) (pf : PathFile)
    (k : String) (hne : k ≠ pf.file.name) :
    alookup (syncStep acc pf).2 k = alookup acc.2 k := by
  by_cases hsp : shouldProcess acc.1 pf = true
  · cases him : import_csv_data acc.1.db pf.file with
    | mk db2 r =>
        cases r <;>
          simp [syncStep, hsp, him, alookup_dictInsert_ne _ _ _ _ hne]
  · simp only [Bool.not_eq_true] at hsp
    simp [syncStep_skip acc pf hsp]

theorem runFiles_stats_frame (files : List PathFile)
    (acc : ProcState × List (String × Nat)) (k : String)
    (h : k ∉ files.map (fun pf => pf.file.name)) :
    alookup (runFiles files acc).2 k = alookup acc.2 k := by
  induction files generalizing acc with
  | nil => rfl
  | cons pf rest ih =>
      simp only [List.map_cons, List.mem_cons, not_or] at h
      rw [runFiles, ih _ h.2, syncStep_stats_frame acc pf k h.1]

theorem syncStep_tm_mono (acc : ProcState × List (String × Nat)) (pf : PathFile)
    (t : String) (s : List (String × ColType))
    (h : alookup acc.1.db.table_models t = some s) :
    alookup (syncStep acc pf).1.db.table_models t = some s := by
  by_cases hsp : shouldProcess acc.1 pf = true
  · have := import_tm_mono acc.1.db pf.file t s h
    cases him : import_csv_data acc.1.db pf.file with
    | mk db2 r =>
        rw [him] at this
        cases r <;> simpa [syncStep, hsp, him] using this
  · simp only [Bool.not_eq_true] at hsp
    simpa [syncStep_skip acc pf hsp] using h

theorem runFiles_tm_mono (files : List PathFile)
    (acc : ProcState × List (String × Nat)) (t : String)
    (s : List (String × ColType))
    (h : alookup acc.1.db.table_models t = some s) :
    alookup (runFiles files acc).1.db.table_models t = some s := by
  induction files generalizing acc with
  | nil => exact h
  | cons pf rest ih =>
      rw [runFiles]
      exact ih _ (syncStep_tm_mono acc pf t s h)

theorem syncStep_tm_frame (acc : ProcState × List (String × Nat)) (pf : PathFile)
    (t : String) (hne : t ≠ table_name_of pf.file.name) :
    alookup (syncStep acc pf).1.db.table_models t =
      alookup acc.1.db.table_models t := by
  by_cases hsp : shouldProcess acc.1 pf = true
  · have := import_tm_frame acc.1.db pf.file t hne
    cases him : import_csv_data acc.1.db pf.file with
    | mk db2 r =>
        rw [him] at this
        cases r <;> simpa [syncStep, hsp, him] using this
  · simp only [Bool.not_eq_true] at hsp
    simp [syncStep_skip acc pf hsp]

/-- Once an import fails against a database state, it keeps failing
against every state reached by synchronization steps over files none of
which derives the same table name (which could otherwise create the
missing table and let a retry succeed). -/
theorem runFiles_fail_stable (files : List PathFile)
    (acc : ProcState × List (String × Nat)) (f : SrcFile0)
    (h : isOkE (import_csv_data acc.1.db f).2 = false)
    (hni : table_name_of f.name ∉
      files.map (fun pf => table_name_of pf.file.name)) :
    isOkE (import_csv_data (runFiles files acc).1.db f).2 = false := by
  induction files generalizing acc with
  | nil => exact h
  | cons pf rest ih =>
      simp only [List.map_cons, List.mem_cons, not_or] at hni
      rw [runFiles]
      refine ih _ ?_ hni.2
      refine import_fail_stable_frame acc.1.db (syncStep acc pf).1.db f h
        (fun t s hs => syncStep_tm_mono acc pf t s hs) ?_
      intro habs
      rw [syncStep_tm_frame acc pf (table_name_of f.name) hni.1]
      exact habs

theorem procstate_eta (st : ProcState) (h : st.initialized = true) :
    { st with initialized := true } = st := by
  cases st
  simp_all

/-- First synchronize of the process lifetime, with pairwise distinct
paths and derived table names: every scanned file is attempted;
afterwards a file either has its fingerprint recorded (that file was
brought in at its turn) or has no recorded fingerprint and still fails
against the final database state. -/
theorem runFiles_first_sync (files : List PathFile) (st : ProcState)
    (stats : List (String × Nat))
    (hinit : st.initialized = false)
    (hnd : (files.map (fun pf => pf.path)).Nodup)
    (hndT : (files.map (fun pf => table_name_of pf.file.name)).Nodup)
    (hfresh : ∀ pf ∈ files, alookup st.file_hashes pf.path = none) :
    ∀ pf ∈ files,
      alookup (runFiles files (st, stats)).1.file_hashes pf.path =
          some pf.file.content ∨
      (alookup (runFiles files (st, stats)).1.file_hashes pf.path = none ∧
        isOkE (import_csv_data (runFiles files (st, stats)).1.db pf.file).2 = false) := by
  induction files generalizing st stats with
  | nil =>
      intro pf h
      exact absurd h (List.not_mem_nil pf)
  | cons pf0 rest ih =>
      rw [List.map_cons] at hnd hndT
      obtain ⟨hnd1, hnd2⟩ := List.nodup_cons.mp hnd
      obtain ⟨hndT1, hndT2⟩ := List.nodup_cons.mp hndT
      have hsp : shouldProcess st pf0 = true := by simp [shouldProcess, hinit]
      intro pf hpf
      by_cases himp : isOkE (import_csv_data st.db pf0.file).2 = true
      · rcases isOkE_true _ himp with ⟨n, hok⟩
        rw [runFiles, syncStep_proc_ok (st, stats) pf0 n hsp hok]
        rcases List.mem_cons.mp hpf with he | hr
        · rw [he]
          left
          rw [runFiles_fh_frame rest _ pf0.path hnd1]
          exact alookup_dictInsert_self st.file_hashes pf0.path pf0.file.content
        · refine ih
            { st with
                db := (import_csv_data st.db pf0.file).1
                file_hashes := dictInsert st.file_hashes pf0.path pf0.file.content }
            (dictInsert stats pf0.file.name n) hinit hnd2 hndT2 ?_ pf hr
          intro pf2 hpf2
          have hne2 : pf2.path ≠ pf0.path := by
            intro he
            exact hnd1 (he ▸ List.mem_map_of_mem _ hpf2)
          show alookup (dictInsert st.file_hashes pf0.path pf0.file.content) pf2.path = none
          rw [alookup_dictInsert_ne _ _ _ _ hne2]
          exact hfresh pf2 (List.mem_cons_of_mem _ hpf2)
      · simp only [Bool.not_eq_true] at himp
        rw [runFiles, syncStep_proc_err (st, stats) pf0 hsp himp]
        rcases List.mem_cons.mp hpf with he | hr
        · rw [he]
          right
          constructor
          · rw [runFiles_fh_frame rest _ pf0.path hnd1]
            exact hfresh pf0 (List.mem_cons_self pf0 rest)
          · exact runFiles_fail_stable rest _ pf0.file himp hndT1
        · exact ih st (dictInsert stats pf0.file.name 0) hinit hnd2 hndT2
            (fun pf2 hpf2 => hfresh pf2 (List.mem_cons_of_mem _ hpf2)) pf hr

/-- A later synchronize in which every scanned file either has its
current fingerprint recorded or fails to import: the processor state is
left completely unchanged; files with a recorded current fingerprint are
skipped (no report entry), the others are retried and reported as 0. -/
theorem runFiles_second_sync (files : List PathFile) (st : ProcState)
    (stats : List (String × Nat))
    (hinit : st.initialized = true)
    (hnd : (files.map (fun pf => pf.file.name)).Nodup)
    (H : ∀ pf ∈ files,
      alookup st.file_hashes pf.path = some pf.file.content ∨
      isOkE (import_csv_data st.db pf.file).2 = false) :
    (runFiles files (st, stats)).1 = st ∧
    ∀ pf ∈ files,
      (alookup st.file_hashes pf.path = some pf.file.content →
        alookup (runFiles files (st, stats)).2 pf.file.name =
          alookup stats pf.file.name) ∧
      (alookup st.file_hashes pf.path ≠ some pf.file.content →
        alookup (runFiles files (st, stats)).2 pf.file.name = some 0) := by
  induction files generalizing stats with
  | nil =>
      refine ⟨rfl, ?_⟩
      intro pf h
      exact absurd h (List.not_mem_nil pf)
  | cons pf0 rest ih =>
      rw [List.map_cons] at hnd
      obtain ⟨hnd1, hnd2⟩ := List.nodup_cons.mp hnd
      by_cases hm : alookup st.file_hashes pf0.path = some pf0.file.content
      · have hsp : shouldProcess st pf0 = false := by
          simp [shouldProcess, hinit, hm]
        have hse := syncStep_skip (st, stats) pf0 hsp
        have hrec := ih stats hnd2 (fun pf h => H pf (List.mem_cons_of_mem _ h))
        refine ⟨by rw [runFiles, hse]; exact hrec.1, ?_⟩
        intro pf hpf
        rcases List.mem_cons.mp hpf with he | hr
        · rw [he]
          refine ⟨fun _ => ?_, fun hne => absurd hm hne⟩
          rw [runFiles, hse]
          exact runFiles_stats_frame rest (st, stats) pf0.file.name hnd1
        · rw [runFiles, hse]
          exact hrec.2 pf hr
      · have hfail : isOkE (import_csv_data st.db pf0.file).2 = false := by
          rcases H pf0 (List.mem_cons_self pf0 rest) with h | h
          · exact absurd h hm
          · exact h
        have hsp : shouldProcess st pf0 = true := by
          simp [shouldProcess, hinit, hm]
        have hse := syncStep_proc_err (st, stats) pf0 hsp hfail
        have hrec := ih (dictInsert stats pf0.file.name 0) hnd2
          (fun pf h => H pf (List.mem_cons_of_mem _ h))
        refine ⟨by rw [runFiles, hse]; exact hrec.1, ?_⟩
        intro pf hpf
        rcases List.mem_cons.mp hpf with he | hr
        · rw [he]
          refine ⟨fun hcm => absurd hcm hm, fun _ => ?_⟩
          rw [runFiles, hse]
          rw [runFiles_stats_frame rest _ pf0.file.name hnd1]
          exact alookup_dictInsert_self stats pf0.file.name 0
        · have hneq : pf.file.name ≠ pf0.file.name := by
            intro he
            exact hnd1 (he ▸ List.mem_map_of_mem _ hr)
          refine ⟨fun hcm => ?_, fun hcm => ?_⟩
          · rw [runFiles, hse, (hrec.2 pf hr).1 hcm]
            exact alookup_dictInsert_ne stats _ _ 0 hneq
          · rw [runFiles, hse]
            exact (hrec.2 pf hr).2 hcm

/-- On a first synchronize every scanned file is attempted and produces
one report entry, so with pairwise distinct base names the report has
exactly one entry per scanned file. -/
theorem runFiles_len_first (files : List PathFile) (st : ProcState)
    (stats : List (String × Nat))
    (hinit : st.initialized = false)
    (hnd : (files.map (fun pf => pf.file.name)).Nodup)
    (hdisj : ∀ pf ∈ files, alookup stats pf.file.name = none) :
    (runFiles files (st, stats)).2.length = stats.length + files.length := by
  induction files generalizing st stats with
  | nil => simp [runFiles]
  | cons pf0 rest ih =>
      rw [List.map_cons] at hnd
      obtain ⟨hnd1, hnd2⟩ := List.nodup_cons.mp hnd
      have hsp : shouldProcess st pf0 = true := by simp [shouldProcess, hinit]
      have hnew : alookup stats pf0.file.name = none :=
        hdisj pf0 (List.mem_cons_self pf0 rest)
      have hlen := dictInsert_length_new stats pf0.file.name
      have hfr : ∀ (v : Nat), ∀ pf2 ∈ rest,
          alookup (dictInsert stats pf0.file.name v) pf2.file.name = none := by
        intro v pf2 hpf2
        have hne2 : pf2.file.name ≠ pf0.file.name := by
          intro he
          exact hnd1 (he ▸ List.mem_map_of_mem _ hpf2)
        rw [alookup_dictInsert_ne _ _ _ _ hne2]
        exact hdisj pf2 (List.mem_cons_of_mem _ hpf2)
      by_cases himp : isOkE (import_csv_data st.db pf0.file).2 = true
      · rcases isOkE_true _ himp with ⟨n, hok⟩
        rw [runFiles, syncStep_proc_ok (st, stats) pf0 n hsp hok]
        show (runFiles rest
            ({ st with
                db := (import_csv_data st.db pf0.file).1
                file_hashes := dictInsert st.file_hashes pf0.path pf0.file.content },
             dictInsert stats pf0.file.name n)).2.length =
          stats.length + (pf0 :: rest).length
        rw [ih { st with
                db := (import_csv_data st.db pf0.file).1
                file_hashes := dictInsert st.file_hashes pf0.path pf0.file.content }
            (dictInsert stats pf0.file.name n) hinit hnd2 (hfr n), hlen n hnew]
        simp [List.length_cons]
        omega
      · simp only [Bool.not_eq_true] at himp
        rw [runFiles, syncStep_proc_err (st, stats) pf0 hsp himp]
        show (runFiles rest (st, dictInsert stats pf0.file.name 0)).2.length =
          stats.length + (pf0 :: rest).length
        rw [ih st (dictInsert stats pf0.file.name 0) hinit hnd2 (hfr 0), hlen 0 hnew]
        simp [List.length_cons]
        omega

/-- On a first synchronize against a database in which none of the
derived table names exist yet, with pairwise distinct base names and
pairwise distinct derived table names, every unreadable file is reported
as 0, every readable file whose class creation raises (a column cleaned
to id or metadata) is reported as 0, and every other readable file is
reported with its true row count. -/
theorem runFiles_first_values (files : List PathFile) (st : ProcState)
    (stats : List (String × Nat))
    (hinit : st.initialized = false)
    (hnd : (files.map (fun pf => pf.file.name)).Nodup)
    (hndT : (files.map (fun pf => table_name_of pf.file.name)).Nodup)
    (hfreshT : ∀ pf ∈ files,
      alookup st.db.table_models (table_name_of pf.file.name) = none) :
    ∀ pf ∈ files,
      (pf.file.parsed = none →
        alookup (runFiles files (st, stats)).2 pf.file.name = some 0) ∧
      (∀ df, pf.file.parsed = some df →
        alookup (runFiles files (st, stats)).2 pf.file.name =
          some (if createRaises df = true then 0 else df.nrows)) := by
  induction files generalizing st stats with
  | nil =>
      intro pf h
      exact absurd h (List.not_mem_nil pf)
  | cons pf0 rest ih =>
      rw [List.map_cons] at hnd hndT
      obtain ⟨hnd1, hnd2⟩ := List.nodup_cons.mp hnd
      obtain ⟨hndT1, hndT2⟩ := List.nodup_cons.mp hndT
      have hsp : shouldProcess st pf0 = true := by simp [shouldProcess, hinit]
      intro pf hpf
      cases hp0 : pf0.file.parsed with
      | none =>
          have hfail : isOkE (import_csv_data st.db pf0.file).2 = false := by
            simp [import_csv_data, hp0, isOkE]
          rw [runFiles, syncStep_proc_err (st, stats) pf0 hsp hfail]
          rcases List.mem_cons.mp hpf with he | hr
          · rw [he]
            refine ⟨fun _ => ?_, fun df hdf => ?_⟩
            · rw [runFiles_stats_frame rest _ pf0.file.name hnd1]
              exact alookup_dictInsert_self stats pf0.file.name 0
            · rw [hp0] at hdf
              cases hdf
          · exact ih st (dictInsert stats pf0.file.name 0) hinit hnd2 hndT2
              (fun pf2 hpf2 => hfreshT pf2 (List.mem_cons_of_mem _ hpf2)) pf hr
      | some df =>
          by_cases hcr : createRaises df = true
          · have himp := import_fresh_raises st.db pf0.file df hp0
              (hfreshT pf0 (List.mem_cons_self pf0 rest)) hcr
            have hfail : isOkE (import_csv_data st.db pf0.file).2 = false := by
              rw [himp]
              rfl
            rw [runFiles, syncStep_proc_err (st, stats) pf0 hsp hfail]
            rcases List.mem_cons.mp hpf with he | hr
            · rw [he]
              refine ⟨fun hphm => ?_, fun df2 hdf2 => ?_⟩
              · rw [hp0] at hphm
                cases hphm
              · have hdfeq : df2 = df := by
                  rw [hp0] at hdf2
                  exact (Option.some_inj.mp hdf2).symm
                subst hdfeq
                rw [runFiles_stats_frame rest _ pf0.file.name hnd1, hcr]
                simp [alookup_dictInsert_self]
            · exact ih st (dictInsert stats pf0.file.name 0) hinit hnd2 hndT2
                (fun pf2 hpf2 => hfreshT pf2 (List.mem_cons_of_mem _ hpf2)) pf hr
          · simp only [Bool.not_eq_true] at hcr
            obtain ⟨hok, htm⟩ := import_fresh_ok st.db pf0.file df hp0
              (hfreshT pf0 (List.mem_cons_self pf0 rest)) hcr
            rw [runFiles, syncStep_proc_ok (st, stats) pf0 df.nrows hsp hok]
            rcases List.mem_cons.mp hpf with he | hr
            · rw [he]
              refine ⟨fun hphm => ?_, fun df2 hdf2 => ?_⟩
              · rw [hp0] at hphm
                cases hphm
              · have hdfeq : df2 = df := by
                  rw [hp0] at hdf2
                  exact (Option.some_inj.mp hdf2).symm
                subst hdfeq
                rw [runFiles_stats_frame rest _ pf0.file.name hnd1, hcr]
                simp [alookup_dictInsert_self]
            · refine ih
                { st with
                    db := (import_csv_data st.db pf0.file).1
                    file_hashes := dictInsert st.file_hashes pf0.path pf0.file.content }
                (dictInsert stats pf0.file.name df.nrows) hinit hnd2 hndT2 ?_ pf hr
              intro pf2 hpf2
              have hne2 : table_name_of pf2.file.name ≠ table_name_of pf0.file.name := by
                intro he
                exact hndT1 (he ▸ List.mem_map_of_mem _ hpf2)
              show alookup (import_csv_data st.db pf0.file).1.table_models
                (table_name_of pf2.file.name) = none
              rw [htm, alookup_dictInsert_ne _ _ _ _ hne2]
              exact hfreshT pf2 (List.mem_cons_of_mem _ hpf2)

/- Concrete fixtures used by counterexamples and witnesses. -/

def fileGoodA : SrcFile0 :=
  { name := "a.csv", content := 1, parsed := some ⟨[("x", [Cell.intVal 1])]⟩ }

def fileBadK : SrcFile0 :=
  { name := "k.csv", content := 3, parsed := none }

def fsC2 : Fs :=
  { rootName := "data", rootFiles := [], subdirs := [("cat", [fileGoodA])] }

/-- A file whose only column cleans to id: its first import fails at the
declarative type() call. -/
def fileIdCol : SrcFile0 :=
  { name := "A.csv", content := 9, parsed := some ⟨[("id", [Cell.intVal 5])]⟩ }

def fsC2retry : Fs :=
  { rootName := "data", rootFiles := [], subdirs := [("cat", [fileIdCol, fileGoodA])] }

/-- Claim C2 counterexample: on a one-file dataset whose import succeeds,
the first synchronize reports the file with its row count, but the second
synchronize returns an empty mapping — the unchanged file has no entry at
all instead of an entry with count 0 as the claim demands. Moreover,
when A.csv (single column id, table name a) fails its first import at
class creation and a.csv then creates table a, the second synchronize
retries A.csv against the now-existing table and succeeds with count 1 —
a nonzero entry, so without distinct derived table names even retried
files are not reported 0. -/
theorem C2_counterexample :
    (process_csv_files fsC2 procInit).2 = [("a.csv", 1)] ∧
    (process_csv_files fsC2 (process_csv_files fsC2 procInit).1).2 = [] ∧
    (process_csv_files fsC2retry procInit).2 = [("A.csv", 0), ("a.csv", 1)] ∧
    (process_csv_files fsC2retry (process_csv_files fsC2retry procInit).1).2 =
      [("A.csv", 1)] := by
  exact ⟨rfl, rfl, rfl, rfl⟩

/-- Claim C2 (amended): with pairwise distinct scanned paths, base names
and derived table names, calling synchronize twice in succession from a
fresh process with no filesystem change leaves the processor state
(database, tables, row counts, fingerprints) unchanged, and on the
second call a file whose first import succeeded (fingerprint recorded)
is omitted from the report entirely, while a file whose first import
failed is retried and reported as 0. -/
theorem C2_idempotent_resync_amended (fs : Fs)
    (hp : ((get_csv_files fs).map (fun pf => pf.path)).Nodup)
    (hn : ((get_csv_files fs).map (fun pf => pf.file.name)).Nodup)
    (hT : ((get_csv_files fs).map (fun pf => table_name_of pf.file.name)).Nodup) :
    (process_csv_files fs (process_csv_files fs procInit).1).1 =
      (process_csv_files fs procInit).1 ∧
    ∀ pf ∈ get_csv_files fs,
      (alookup (process_csv_files fs procInit).1.file_hashes pf.path =
          some pf.file.content →
        alookup (process_csv_files fs (process_csv_files fs procInit).1).2
          pf.file.name = none) ∧
      (alookup (process_csv_files fs procInit).1.file_hashes pf.path ≠
          some pf.file.content →
        alookup (process_csv_files fs (process_csv_files fs procInit).1).2
          pf.file.name = some 0) := by
  have hS1 := runFiles_first_sync (get_csv_files fs) procInit [] rfl hp hT
    (fun pf _ => rfl)
  have H : ∀ pf ∈ get_csv_files fs,
      alookup (process_csv_files fs procInit).1.file_hashes pf.path =
        some pf.file.content ∨
      isOkE (import_csv_data (process_csv_files fs procInit).1.db pf.file).2 =
        false := by
    intro pf hpf
    rcases hS1 pf hpf with h1 | ⟨h2, h3⟩
    · exact Or.inl h1
    · exact Or.inr h3
  have hS2 := runFiles_second_sync (get_csv_files fs)
    (process_csv_files fs procInit).1 [] rfl hn H
  constructor
  · show { (runFiles (get_csv_files fs) ((process_csv_files fs procInit).1, [])).1
        with initialized := true } = (process_csv_files fs procInit).1
    rw [hS2.1]
    exact procstate_eta (process_csv_files fs procInit).1 rfl
  · intro pf hpf
    refine ⟨fun hm => ?_, fun hm => ?_⟩
    · exact (hS2.2 pf hpf).1 hm
    · exact (hS2.2 pf hpf).2 hm

theorem C2_witness :
    (process_csv_files fsC2 (process_csv_files fsC2 procInit).1).1 =
      (process_csv_files fsC2 procInit).1 ∧
    ∀ pf ∈ get_csv_files fsC2,
      (alookup (process_csv_files fsC2 procInit).1.file_hashes pf.path =
          some pf.file.content →
        alookup (process_csv_files fsC2 (process_csv_files fsC2 procInit).1).2
          pf.file.name = none) ∧
      (alookup (process_csv_files fsC2 procInit).1.file_hashes pf.path ≠
          some pf.file.content →
        alookup (process_csv_files fsC2 (process_csv_files fsC2 procInit).1).2
          pf.file.name = some 0) :=
  C2_idempotent_resync_amended fsC2 (by decide) (by decide) (by decide)

/- Fixtures for C4: duplicate base names, case-colliding table names, and
a second-run batch. -/

def fileGoodData1 : SrcFile0 :=
  { name := "data.csv", content := 1, parsed := some ⟨[("x", [Cell.intVal 1])]⟩ }

def fileGoodData2 : SrcFile0 :=
  { name := "data.csv", content := 2, parsed := some ⟨[("x", [Cell.intVal 2])]⟩ }

def fileUpperA : SrcFile0 :=
  { name := "A.csv", content := 4, parsed := some ⟨[("x", [Cell.intVal 1])]⟩ }

def fileLowerA : SrcFile0 :=
  { name := "a.csv", content := 5, parsed := some ⟨[("y", [Cell.intVal 2])]⟩ }

def fsC4dup : Fs :=
  { rootName := "data", rootFiles := [],
    subdirs := [("a", [fileGoodData1]), ("b", [fileGoodData2, fileBadK])] }

def fsC4case : Fs :=
  { rootName := "data", rootFiles := [],
    subdirs := [("c", [fileUpperA, fileLowerA, fileBadK])] }

def fsC4second : Fs :=
  { rootName := "data", rootFiles := [],
    subdirs := [("c", [fileGoodA, fileBadK])] }

/-- A readable one-row file whose only column cleans to id: its dynamic
class creation raises. -/
def fileIdsCsv : SrcFile0 :=
  { name := "ids.csv", content := 11, parsed := some ⟨[("id", [Cell.intVal 5])]⟩ }

def fsC4id : Fs :=
  { rootName := "data", rootFiles := [], subdirs := [("c", [fileIdsCsv])] }

/-- Claim C4 counterexample: (i) with three scanned files of which two
share the base name data.csv and only k.csv is malformed, the report has
2 entries, not N = 3; (ii) with files A.csv and a.csv colliding on the
derived table name a, the well-formed a.csv is reported as 0 instead of
its true row count 1 when k.csv is the malformed file; (iii) on a second
synchronize of a two-file batch with malformed k.csv, the report has one
entry, not N = 2; (iv) the readable one-row file ids.csv, whose only
column cleans to id, is reported as 0 (its class creation raises), not
its true row count 1. -/
theorem C4_counterexample :
    ((process_csv_files fsC4dup procInit).2.length = 2 ∧
      (get_csv_files fsC4dup).length = 3) ∧
    (alookup (process_csv_files fsC4case procInit).2 "a.csv" = some 0 ∧
      (∃ df, fileLowerA.parsed = some df ∧ df.nrows = 1)) ∧
    ((process_csv_files fsC4second
        (process_csv_files fsC4second procInit).1).2.length = 1 ∧
      (get_csv_files fsC4second).length = 2) ∧
    (alookup (process_csv_files fsC4id procInit).2 "ids.csv" = some 0 ∧
      (∃ df, fileIdsCsv.parsed = some df ∧ df.nrows = 1)) := by
  exact ⟨⟨by rfl, by rfl⟩, ⟨by rfl, ⟨⟨[("y", [Cell.intVal 2])]⟩, rfl, rfl⟩⟩,
    ⟨by rfl, by rfl⟩, ⟨by rfl, ⟨⟨[("id", [Cell.intVal 5])]⟩, rfl, rfl⟩⟩⟩

/-- Claim C4 (amended): on the first synchronize of the process (all
files attempted against a fresh database), provided the scanned files
have pairwise distinct base names and pairwise distinct derived table
names, the report has exactly one entry per scanned file; every
unreadable (malformed) file is mapped to 0, every readable file whose
dynamic class creation raises (a column cleaned to id or metadata) is
mapped to 0, and every other readable file is mapped to its true row
count — a failing file never aborts the batch. -/
theorem C4_fault_isolation_amended (fs : Fs)
    (hn : ((get_csv_files fs).map (fun pf => pf.file.name)).Nodup)
    (hT : ((get_csv_files fs).map (fun pf => table_name_of pf.file.name)).Nodup) :
    (process_csv_files fs procInit).2.length = (get_csv_files fs).length ∧
    ∀ pf ∈ get_csv_files fs,
      (pf.file.parsed = none →
        alookup (process_csv_files fs procInit).2 pf.file.name = some 0) ∧
      (∀ df, pf.file.parsed = some df →
        alookup (process_csv_files fs procInit).2 pf.file.name =
          some (if createRaises df = true then 0 else df.nrows)) := by
  constructor
  · have h := runFiles_len_first (get_csv_files fs) procInit [] rfl hn
      (fun pf _ => rfl)
    simpa using h
  · exact runFiles_first_values (get_csv_files fs) procInit [] rfl hn hT
      (fun pf _ => rfl)

theorem C4_witness :
    (process_csv_files fsC4second procInit).2.length =
      (get_csv_files fsC4second).length ∧
    ∀ pf ∈ get_csv_files fsC4second,
      (pf.file.parsed = none →
        alookup (process_csv_files fsC4second procInit).2 pf.file.name = some 0) ∧
      (∀ df, pf.file.parsed = some df →
        alookup (process_csv_files fsC4second procInit).2 pf.file.name =
          some (if createRaises df = true then 0 else df.nrows)) :=
  C4_fault_isolation_amended fsC4second (by decide) (by decide)

/-- Claim C5: within one loop iteration of synchronize over a file that
is actually attempted, a failed import leaves the fingerprint map
exactly as it was before the attempt (and, when the recorded fingerprint
differs from the current one, the file is attempted again on the next
synchronize), while a successful import records the fingerprint. -/
theorem C5_fingerprint_only_on_success (st : ProcState)
    (stats : List (String × Nat)) (pf : PathFile)
    (hproc : shouldProcess st pf = true) :
    (isOkE (import_csv_data st.db pf.file).2 = false →
      (syncStep (st, stats) pf).1.file_hashes = st.file_hashes ∧
      (alookup st.file_hashes pf.path ≠ some pf.file.content →
        shouldProcess { (syncStep (st, stats) pf).1 with initialized := true }
          pf = true)) ∧
    (∀ n, (import_csv_data st.db pf.file).2 = Except.ok n →
      (syncStep (st, stats) pf).1.file_hashes =
        dictInsert st.file_hashes pf.path pf.file.content) := by
  constructor
  · intro hfail
    rw [syncStep_proc_err (st, stats) pf hproc hfail]
    refine ⟨rfl, fun hne => ?_⟩
    simp [shouldProcess, hne]
  · intro n hok
    rw [syncStep_proc_ok (st, stats) pf n hproc hok]

def pfBadK : PathFile := { path := "data/c/k.csv", file := fileBadK }

theorem C5_witness :
    (isOkE (import_csv_data procInit.db pfBadK.file).2 = false →
      (syncStep (procInit, []) pfBadK).1.file_hashes = procInit.file_hashes ∧
      (alookup procInit.file_hashes pfBadK.path ≠ some pfBadK.file.content →
        shouldProcess { (syncStep (procInit, []) pfBadK).1 with initialized := true }
          pfBadK = true)) ∧
    (∀ n, (import_csv_data procInit.db pfBadK.file).2 = Except.ok n →
      (syncStep (procInit, []) pfBadK).1.file_hashes =
        dictInsert procInit.file_hashes pfBadK.path pfBadK.file.content) :=
  C5_fingerprint_only_on_success procInit [] pfBadK (by decide)

/-- Claim C6: table creation is idempotent with first-write-wins
semantics — when the derived table name is already registered, an import
of a source file with that name leaves the whole table registry (hence
the registered schema) unchanged; the column list inferred from the
later file is ignored. -/
theorem C6_first_write_wins (db : DBState) (f : SrcFile0)
    (h : (alookup db.table_models (table_name_of f.name)).isSome) :
    (import_csv_data db f).1.table_models = db.table_models :=
  (import_tm_eq_of_present db f h)

def dbWithA : DBState :=
  { table_models := [("a", [("id", ColType.integer), ("x", ColType.integer)])],
    rowCounts := [("a", 1)] }

theorem C6_witness :
    (import_csv_data dbWithA fileLowerA).1.table_models = dbWithA.table_models :=
  C6_first_write_wins dbWithA fileLowerA (by decide)

/-- Claim C7: a failed import never corrupts the registry — it leaves
the table registry exactly as it was (so no partially
registered table can appear), and every schema the registry can ever
receive contains every cleaned column of the file it was built from. -/
theorem C7_no_partial_registration :
    (∀ (db : DBState) (f : SrcFile0),
      isOkE (import_csv_data db f).2 = false →
      (import_csv_data db f).1.table_models = db.table_models) ∧
    (∀ (df : CSVData) (c : String), c ∈ cleanedCols df →
      (alookup (fullSchema df) c).isSome) := by
  constructor
  · intro db f h
    rw [import_fail_pure db f h]
  · exact fullSchema_complete

theorem C7_witness :
    (import_csv_data dbWithA fileBadK).1.table_models = dbWithA.table_models ∧
    (alookup (fullSchema ⟨[("x", [Cell.intVal 1])]⟩) "x").isSome :=
  ⟨C7_no_partial_registration.1 dbWithA fileBadK (by decide),
    C7_no_partial_registration.2 ⟨[("x", [Cell.intVal 1])]⟩ "x" (by decide)⟩

/-- Claim C8: unknown lookups fail with the typed not-found errors — a
table name not in the registry makes get_table_schema fail with NotFound
(ValueError), and a category absent from the categories mapping makes
get_category_table_schemas fail with CategoryNotFound (HTTP 404). -/
theorem C8_typed_not_found (db : DBState) (fs : Fs) (t c : String)
    (ht : alookup db.table_models t = none)
    (hc : alookup (get_dataset_categories fs) c = none) :
    get_table_schema db t = Except.error LookupErr.notFound ∧
    get_category_table_schemas db fs c = Except.error ServiceErr.categoryNotFound := by
  constructor
  · simp [get_table_schema, ht]
  · simp [get_category_table_schemas, hc]

def fsEmptyC8 : Fs := { rootName := "data", rootFiles := [], subdirs := [] }

theorem C8_witness :
    get_table_schema { table_models := [], rowCounts := [] } "t" =
      Except.error LookupErr.notFound ∧
    get_category_table_schemas { table_models := [], rowCounts := [] } fsEmptyC8
      "c" = Except.error ServiceErr.categoryNotFound :=
  C8_typed_not_found { table_models := [], rowCounts := [] } fsEmptyC8 "t" "c"
    (by decide) (by decide)

/- ===================================================================
   ConnectionManager (backend/app/websockets/connection_manager.py).
   WebSocket handles are abstracted as numbers; datetime.now() is passed
   in as an abstract timestamp.
   =================================================================== -/

structure Message where
  role : String
  content : String
deriving DecidableEq, Repr

structure HistEntry where
  role : String
  content : String
  timestamp : Nat
deriving DecidableEq, Repr

structure ConnectionManager where
  active_connections : List Nat
  chat_history : List (String × List HistEntry)
deriving DecidableEq, Repr

def initCM : ConnectionManager := { active_connections := [], chat_history := [] }

/-- ConnectionManager.connect (the successful accept path): track the
socket and create an empty history for a first-time client id. -/
def connect (cm : ConnectionManager) (ws : Nat) (client_id : String) :
    ConnectionManager :=
  { active_connections := cm.active_connections ++ [ws]
    chat_history :=
      if (alookup cm.chat_history client_id).isSome then cm.chat_history
      else cm.chat_history ++ [(client_id, [])] }

/-- ConnectionManager.disconnect: removes the first occurrence of the
socket, a no-op when it is absent (the ValueError is swallowed). -/
def disconnect (cm : ConnectionManager) (ws : Nat) : ConnectionManager :=
  { cm with active_connections := cm.active_connections.erase ws }

/-- ConnectionManager.add_to_history: appends the message plus timestamp
to the history of client_id when that key exists; otherwise the call
silently does nothing. -/
def add_to_history (cm : ConnectionManager) (client_id : String)
    (message : Message) (now : Nat) : ConnectionManager :=
  if (alookup cm.chat_history client_id).isSome then
    { cm with
        chat_history := cm.chat_history.map (fun kv =>
          if kv.1 = client_id then
            (kv.1, kv.2 ++ [⟨message.role, message.content, now⟩])
          else kv) }
  else cm

/-- ConnectionManager.get_client_history: the stored list, or [] for an
unknown client id. -/
def get_client_history (cm : ConnectionManager) (client_id : String) :
    List HistEntry :=
  (alookup cm.chat_history client_id).getD []

theorem alookup_update_append (l : List (String × List HistEntry))
    (k0 k : String) (e : HistEntry) :
    alookup (l.map (fun kv => if kv.1 = k0 then (kv.1, kv.2 ++ [e]) else kv)) k =
      if k = k0 then (alookup l k).map (fun v => v ++ [e]) else alookup l k := by
  induction l with
  | nil => by_cases h : k = k0 <;> simp [alookup, h]
  | cons hd tl ih =>
      obtain ⟨a, b⟩ := hd
      simp only [List.map_cons]
      by_cases h0 : a = k0
      · subst h0
        rw [show (if ((a, b) : String × List HistEntry).1 = a then
              ((a, b).1, (a, b).2 ++ [e]) else (a, b)) = (a, b ++ [e]) from by simp]
        by_cases h1 : k = a <;> simp [alookup, h1, ih]
      · rw [show (if ((a, b) : String × List HistEntry).1 = k0 then
              ((a, b).1, (a, b).2 ++ [e]) else (a, b)) = (a, b) from by simp [h0]]
        by_cases h1 : k = a
        · subst h1
          simp [alookup, h0]
        · simp [alookup, h1, ih]

/-- Appending one message to a known client: the history grows at the
end by exactly that entry, the key set is unchanged. -/
theorem add_to_history_known (cm : ConnectionManager) (cid : String)
    (m : Message) (now : Nat) (h : (alookup cm.chat_history cid).isSome) :
    get_client_history (add_to_history cm cid m now) cid =
      get_client_history cm cid ++ [⟨m.role, m.content, now⟩] ∧
    (alookup (add_to_history cm cid m now).chat_history cid).isSome := by
  rcases Option.isSome_iff_exists.mp h with ⟨v, hv⟩
  constructor
  · simp [add_to_history, h, get_client_history, alookup_update_append, hv]
  · simp [add_to_history, h, alookup_update_append, hv]

def addAll (cm : ConnectionManager) (cid : String)
    (msgs : List (Message × Nat)) : ConnectionManager :=
  msgs.foldl (fun c mt => add_to_history c cid mt.1 mt.2) cm

/-- The fourteen history entries produced by seven audit exchanges (each
exchange stores one user message and one assistant message). -/
def exchangesC1 : List (Message × Nat) :=
  (List.range 7).flatMap
    (fun i => [(⟨"user", "q"⟩, i), (⟨"assistant", "r"⟩, i)])

/-- Claim C1 counterexample: add_to_history never evicts — after seven
exchanges (fourteen stored messages) for one connected client the
history holds all fourteen entries, not the ten entries of the last five
exchanges and not five entries. -/
theorem C1_counterexample :
    (get_client_history (addAll (connect initCM 0 "c1") "c1" exchangesC1)
        "c1").length = 14 ∧
    ¬((get_client_history (addAll (connect initCM 0 "c1") "c1" exchangesC1)
        "c1").length ≤ 10) := by
  constructor
  · rfl
  · decide

/-- Claim C1 (amended): the conversation history kept per client id is
an unbounded ordered sequence — for a connected client, appending any
sequence of messages leaves the previous history in place and adds every
appended entry at the end in chronological order; nothing is ever
evicted. -/
theorem C1_history_unbounded_amended (cm : ConnectionManager) (cid : String)
    (h : (alookup cm.chat_history cid).isSome) (msgs : List (Message × Nat)) :
    get_client_history (addAll cm cid msgs) cid =
      get_client_history cm cid ++
        msgs.map (fun mt => ⟨mt.1.role, mt.1.content, mt.2⟩) := by
  induction msgs generalizing cm with
  | nil => simp [addAll]
  | cons mt rest ih =>
      have hstep := add_to_history_known cm cid mt.1 mt.2 h
      have hrec := ih (add_to_history cm cid mt.1 mt.2) hstep.2
      show get_client_history
          (addAll (add_to_history cm cid mt.1 mt.2) cid rest) cid = _
      rw [hrec, hstep.1]
      simp

theorem C1_witness :
    get_client_history (addAll (connect initCM 0 "c1") "c1" exchangesC1) "c1" =
      get_client_history (connect initCM 0 "c1") "c1" ++
        exchangesC1.map (fun mt => ⟨mt.1.role, mt.1.content, mt.2⟩) :=
  C1_history_unbounded_amended (connect initCM 0 "c1") "c1" (by decide)
    exchangesC1

/- Trace model for C9: the operations that touch a ConnectionManager. -/

inductive Op : Type where
  | connectOp (ws : Nat) (cid : String) : Op
  | disconnectOp (ws : Nat) : Op
  | addOp (cid : String) (m : Message) (now : Nat) : Op
deriving DecidableEq, Repr

def applyOp (cm : ConnectionManager) : Op → ConnectionManager
  | Op.connectOp ws cid => connect cm ws cid
  | Op.disconnectOp ws => disconnect cm ws
  | Op.addOp cid m now => add_to_history cm cid m now

def runOps (ops : List Op) : ConnectionManager := ops.foldl applyOp initCM

theorem alookup_append_single {β : Type} (l : List (String × β))
    (k k2 : String) (v : β) (h : alookup l k = none) (hne : k ≠ k2) :
    alookup (l ++ [(k2, v)]) k = none := by
  induction l with
  | nil => simp [alookup, hne]
  | cons hd tl ih =>
      by_cases h1 : k = hd.1
      · simp [alookup, h1] at h
      · simp [alookup, h1] at h ⊢
        exact ih h

/-- Only connect can create a history key: a client id that no connect
in the trace mentions has no key in the chat history. -/
theorem foldOps_no_key (ops : List Op) (cm : ConnectionManager) (cid : String)
    (hcm : alookup cm.chat_history cid = none)
    (h : ∀ ws, Op.connectOp ws cid ∉ ops) :
    alookup (ops.foldl applyOp cm).chat_history cid = none := by
  induction ops generalizing cm with
  | nil => exact hcm
  | cons op rest ih =>
      rw [List.foldl_cons]
      refine ih (applyOp cm op) ?_ (fun ws hmem => h ws (List.mem_cons_of_mem _ hmem))
      cases op with
      | connectOp ws cid2 =>
          have hne : cid ≠ cid2 := by
            intro he
            exact h ws (by rw [he]; exact List.mem_cons_self _ _)
          show alookup (connect cm ws cid2).chat_history cid = none
          unfold connect
          by_cases hp : (alookup cm.chat_history cid2).isSome
          · simpa [hp] using hcm
          · simp only [hp, if_false, Bool.false_eq_true]
            exact alookup_append_single cm.chat_history cid cid2 [] hcm hne
      | disconnectOp ws => exact hcm
      | addOp cid2 m now =>
          show alookup (add_to_history cm cid2 m now).chat_history cid = none
          unfold add_to_history
          by_cases hp : (alookup cm.chat_history cid2).isSome
          · simp only [hp, if_true]
            rw [alookup_update_append cm.chat_history cid2 cid
              ⟨m.role, m.content, now⟩]
            by_cases he : cid = cid2
            · subst he
              simp [hcm]
            · simp [he, hcm]
          · simpa [hp] using hcm

/-- Claim C9: add_to_history for a client id never passed to connect
leaves the whole manager state unchanged (the message is silently
dropped, no key is created) and get_client_history returns []. -/
theorem C9_unconnected_client_noop (ops : List Op) (cid : String)
    (m : Message) (now : Nat)
    (h : ∀ ws, Op.connectOp ws cid ∉ ops) :
    add_to_history (runOps ops) cid m now = runOps ops ∧
    get_client_history (runOps ops) cid = [] := by
  have hk : alookup (runOps ops).chat_history cid = none :=
    foldOps_no_key ops initCM cid rfl h
  constructor
  · simp [add_to_history, hk]
  · simp [get_client_history, hk]

def opsC9 : List Op :=
  [Op.connectOp 0 "c1", Op.addOp "c1" ⟨"user", "q"⟩ 0]

theorem C9_witness :
    add_to_history (runOps opsC9) "c2" ⟨"user", "q2"⟩ 1 = runOps opsC9 ∧
    get_client_history (runOps opsC9) "c2" = [] :=
  C9_unconnected_client_noop opsC9 "c2" ⟨"user", "q2"⟩ 1 (by
    intro ws hmem
    simp only [opsC9, List.mem_cons, List.not_mem_nil, or_false] at hmem
    rcases hmem with h | h
    · injection h with h1 h2
      exact absurd h2 (by decide)
    · exact Op.noConfusion h)

theorem alookup_append_single_any {α β : Type} [DecidableEq α]
    (l : List (α × β)) (k k2 : α) (v : β)
    (h : alookup l k = none) (hne : k ≠ k2) :
    alookup (l ++ [(k2, v)]) k = none := by
  induction l with
  | nil => simp [alookup, hne]
  | cons hd tl ih =>
      by_cases h1 : k = hd.1
      · simp [alookup, h1] at h
      · simp [alookup, h1] at h ⊢
        exact ih h

theorem foldl_dictInsert_fresh {α β : Type} [DecidableEq α]
    (l : List (α × β)) (acc : List (α × β))
    (h : ∀ k ∈ l.map Prod.fst, alookup acc k = none)
    (hnd : (l.map Prod.fst).Nodup) :
    l.foldl (fun d kv => dictInsert d kv.1 kv.2) acc = acc ++ l := by
  induction l generalizing acc with
  | nil => simp
  | cons hd tl ih =>
      rw [List.map_cons] at hnd
      obtain ⟨hnd1, hnd2⟩ := List.nodup_cons.mp hnd
      have hfresh0 : alookup acc hd.1 = none :=
        h hd.1 (by simp)
      rw [List.foldl_cons, dictInsert_absent acc hd.1 hd.2 hfresh0]
      rw [ih (acc ++ [(hd.1, hd.2)]) ?_ hnd2]
      · simp
      · intro k hk
        have hne : k ≠ hd.1 := fun he => hnd1 (he ▸ hk)
        exact alookup_append_single_any acc k hd.1 hd.2
          (h k (List.mem_cons_of_mem _ hk)) hne

/-- A python dict built from pairs with pairwise distinct keys is that
list of pairs itself. -/
theorem pyDict_nodup_id {α β : Type} [DecidableEq α] (l : List (α × β))
    (hnd : (l.map Prod.fst).Nodup) : pyDict l = l := by
  have h := foldl_dictInsert_fresh l [] (fun k _ => rfl) hnd
  simpa [pyDict] using h

theorem alookup_of_mem_nodup {α β : Type} [DecidableEq α]
    (l : List (α × β)) (k : α) (v : β)
    (hmem : (k, v) ∈ l) (hnd : (l.map Prod.fst).Nodup) :
    alookup l k = some v := by
  induction l with
  | nil => cases hmem
  | cons hd tl ih =>
      rw [List.map_cons] at hnd
      obtain ⟨hnd1, hnd2⟩ := List.nodup_cons.mp hnd
      rcases List.mem_cons.mp hmem with he | hr
      · rw [← he]
        simp [alookup]
      · have hne : k ≠ hd.1 := by
          intro heq
          exact hnd1 (heq ▸ List.mem_map_of_mem Prod.fst hr)
        simp [alookup, hne, ih hr hnd2]

theorem categoryEntry_key (rootName : String) (sd : String × List SrcFile0)
    (e : String × List String) (h : categoryEntry rootName sd = some e) :
    e.1 = sd.1 := by
  unfold categoryEntry at h
  split at h
  · cases h
  · dsimp only at h
    split at h
    · cases h
    · cases h
      rfl

theorem filterMap_catKeys_sublist (rootName : String)
    (sds : List (String × List SrcFile0)) :
    ((sds.filterMap (categoryEntry rootName)).map Prod.fst).Sublist
      (sds.map Prod.fst) := by
  induction sds with
  | nil => simp
  | cons sd rest ih =>
      rw [List.filterMap_cons]
      cases hce : categoryEntry rootName sd with
      | none =>
          rw [List.map_cons]
          exact ih.cons sd.1
      | some e =>
          rw [List.map_cons, List.map_cons, categoryEntry_key rootName sd e hce]
          exact ih.cons₂ sd.1

theorem get_csv_files_keep (fs : Fs) (pf : PathFile)
    (h : pf ∈ get_csv_files fs) : keepFile pf.file = true := by
  unfold get_csv_files at h
  rcases List.mem_append.mp h with h | h
  · rcases List.mem_map.mp h with ⟨f, hf, he⟩
    rw [← he]
    exact (List.mem_filter.mp hf).2
  · rcases List.mem_flatMap.mp h with ⟨sd, hsd, hmem⟩
    rcases List.mem_map.mp hmem with ⟨f, hf, he⟩
    rw [← he]
    exact (List.mem_filter.mp hf).2

/-- Claim C10: the scan filter and the category filter disagree on
hidden files — a directory other than the root whose CSV files all start
with a dot still appears in the categories mapping listing exactly those
files, while none of them is ever scanned, so no synchronize call ever
produces a report entry (hence an import) for them. -/
theorem C10_hidden_files (fs : Fs) (d : String) (files : List SrcFile0)
    (hmem : (d, files) ∈ fs.subdirs)
    (hnodup : (fs.subdirs.map Prod.fst).Nodup)
    (hroot : d ≠ fs.rootName)
    (hcsv : (files.filter (fun f => pyEndsWith f.name ".csv")).map
      (fun f => f.name) ≠ [])
    (hdot : ∀ f ∈ files, pyEndsWith f.name ".csv" = true →
      pyStartsWith f.name "." = true) :
    alookup (get_dataset_categories fs) d =
      some ((files.filter (fun f => pyEndsWith f.name ".csv")).map
        (fun f => f.name)) ∧
    ∀ f ∈ files, pyEndsWith f.name ".csv" = true →
      (∀ pf ∈ get_csv_files fs, pf.file.name ≠ f.name) ∧
      (∀ st : ProcState, alookup (process_csv_files fs st).2 f.name = none) := by
  constructor
  · have hknd : ((fs.subdirs.filterMap (categoryEntry fs.rootName)).map
        Prod.fst).Nodup :=
      hnodup.sublist (filterMap_catKeys_sublist fs.rootName fs.subdirs)
    have hentry : categoryEntry fs.rootName (d, files) =
        some (d, (files.filter (fun f => pyEndsWith f.name ".csv")).map
          (fun f => f.name)) := by
      unfold categoryEntry
      simp [hroot, List.isEmpty_iff, hcsv]
    have hmem2 : (d, (files.filter (fun f => pyEndsWith f.name ".csv")).map
        (fun f => f.name)) ∈ fs.subdirs.filterMap (categoryEntry fs.rootName) :=
      List.mem_filterMap.mpr ⟨(d, files), hmem, hentry⟩
    unfold get_dataset_categories
    rw [pyDict_nodup_id _ hknd]
    exact alookup_of_mem_nodup _ _ _ hmem2 hknd
  · intro f hf hcsvf
    have hnotin : ∀ pf ∈ get_csv_files fs, pf.file.name ≠ f.name := by
      intro pf hpf he
      have hk := get_csv_files_keep fs pf hpf
      unfold keepFile at hk
      rw [he] at hk
      simp [hdot f hf hcsvf, hcsvf] at hk
    refine ⟨hnotin, fun st => ?_⟩
    have hfr : f.name ∉ (get_csv_files fs).map (fun pf => pf.file.name) := by
      intro hmm
      rcases List.mem_map.mp hmm with ⟨pf, hpf, he⟩
      exact hnotin pf hpf he
    show alookup (runFiles (get_csv_files fs) (st, [])).2 f.name = none
    rw [runFiles_stats_frame (get_csv_files fs) (st, []) f.name hfr]
    rfl

def fileHidden : SrcFile0 :=
  { name := ".secret.csv", content := 7, parsed := some ⟨[("x", [Cell.intVal 1])]⟩ }

def fsC10 : Fs :=
  { rootName := "data", rootFiles := [], subdirs := [("hid", [fileHidden])] }

theorem C10_witness :
    alookup (get_dataset_categories fsC10) "hid" =
      some (([fileHidden].filter (fun f => pyEndsWith f.name ".csv")).map
        (fun f => f.name)) ∧
    ∀ f ∈ [fileHidden], pyEndsWith f.name ".csv" = true →
      (∀ pf ∈ get_csv_files fsC10, pf.file.name ≠ f.name) ∧
      (∀ st : ProcState, alookup (process_csv_files fsC10 st).2 f.name = none) :=
  C10_hidden_files fsC10 "hid" [fileHidden] (by decide) (by decide) (by decide)
    (by decide) (by decide)
